import Mathlib

/-!
Shallow embedding of the GitLab MCP server's shared request/response
pipeline (`src/gitlab_mcp_server/server.py` and
`src/gitlab_mcp_server/errors.py`): configuration resolution, error
classification, field filtering, pagination wrapping, parameter
validation, and the request wiring of two representative tools
(`get_project`, `get_branch`).

Python dicts are embedded as insertion-ordered association lists, Python
dynamic values as the inductive `Val`, and the dynamically typed
arguments of the validators as `PyVal`.  The network is abstracted as an
oracle from requests to decoded responses or faults; each tool returns
its value together with the list of requests it issued, so "no request
was made" is the statement that this list is empty.
-/

/-- A JSON-like value, standing for the Python values flowing through the
pipeline.  Dicts keep insertion order, as Python dicts do. -/
inductive Val where
  | none : Val
  | bool (b : Bool) : Val
  | int (n : Int) : Val
  | str (s : String) : Val
  | list (items : List Val) : Val
  | dict (entries : List (String × Val)) : Val

/-- A dynamically typed argument as a validator receives it.  A float is
carried by its Python `str()` representation: the validators only test a
float's type and interpolate it into an error message, never use its
numeric value. -/
inductive PyVal where
  | int (n : Int)
  | float (r : String)
  | str (s : String)
  | none

/-- Python `type(x).__name__` for the values of `PyVal`. -/
def pyTypeName : PyVal → String
  | PyVal.int _ => "int"
  | PyVal.float _ => "float"
  | PyVal.str _ => "str"
  | PyVal.none => "NoneType"

/-- Python `str(x)` (as used by f-string interpolation) for `PyVal`. -/
def pyStr : PyVal → String
  | PyVal.int n => toString n
  | PyVal.float r => r
  | PyVal.str s => s
  | PyVal.none => "None"

/-- Python `d.get(k)` / `k in d` on an insertion-ordered dict. -/
def alistGet {α : Type} (k : String) : List (String × α) → Option α
  | [] => Option.none
  | kv :: rest => if kv.1 = k then Option.some kv.2 else alistGet k rest

/-- The keys of a dict, in insertion order. -/
def dictKeys {α : Type} (l : List (String × α)) : List String := l.map Prod.fst

/-- `listStartsWith hay needle`: `needle` is an initial segment of `hay`. -/
def listStartsWith : List Char → List Char → Bool
  | _, [] => true
  | [], _ :: _ => false
  | a :: as, b :: bs => a == b && listStartsWith as bs

/-- `listContains hay needle`: `needle` occurs contiguously in `hay`. -/
def listContains : List Char → List Char → Bool
  | [], needle => needle.isEmpty
  | a :: t, needle => listStartsWith (a :: t) needle || listContains t needle

/-- Python `needle in hay` on strings. -/
def strContains (hay needle : String) : Bool :=
  listContains hay.toList needle.toList

/-- The characters Python `str.strip()` removes (ASCII fragment). -/
def isPySpace (c : Char) : Bool :=
  c == ' ' || c == '\t' || c == '\n' || c == '\r' || c == Char.ofNat 11 || c == Char.ofNat 12

/-- Python `s.strip()`: drop leading and trailing whitespace. -/
def pyStrip (s : String) : String :=
  String.mk (((s.toList.dropWhile isPySpace).reverse.dropWhile isPySpace).reverse)

/-- Python `s.lower()` (ASCII fragment). -/
def pyLower (s : String) : String :=
  String.mk (s.toList.map Char.toLower)

/-- Python `s.startswith(pre)`. -/
def pyStartsWith (s pre : String) : Bool :=
  listStartsWith s.toList pre.toList

/-- Splitting on a single comma separator, as Python `s.split(",")`:
always at least one part, empty parts preserved. -/
def splitCommaAux : List Char → List Char → List (List Char)
  | [], acc => [acc.reverse]
  | c :: rest, acc =>
    if c == ',' then acc.reverse :: splitCommaAux rest []
    else splitCommaAux rest (c :: acc)

/-- Python `s.split(",")`. -/
def pySplitComma (s : String) : List String :=
  (splitCommaAux s.toList []).map String.mk

/-! ## `errors.py` -/

/-- The slice of an `httpx` response consulted by `format_http_error`:
status code, raw text body, and the JSON decoding of the body
(`Option.none` when `response.json()` raises). -/
structure HttpResponse where
  status : Nat
  text : String
  json : Option Val

/-- The faults caught by the `handle_gitlab_errors` decorator, one
constructor per `except` clause (the clauses match disjoint exception
classes, so an inductive sum is faithful). -/
inductive Fault where
  | httpStatus (resp : HttpResponse)
  | connect (msg : String)
  | timeout (msg : String)
  | valueError (msg : String)
  | other (msg : String)

/-- The `try` block of `format_http_error`:
`error.response.json().get("message", error.response.text)` with every
raising path (undecodable body, non-dict body) caught and replaced by
`error.response.text`. -/
def responseDetails (resp : HttpResponse) : Val :=
  match resp.json with
  | Option.some (Val.dict fields) =>
    match alistGet "message" fields with
    | Option.some v => v
    | Option.none => Val.str resp.text
  | Option.some _ => Val.str resp.text
  | Option.none => Val.str resp.text

/-- `format_http_error` from `errors.py`: map an HTTP status fault to the
standardized error record (a five-entry dict literal per branch). -/
def format_http_error (resp : HttpResponse) : List (String × Val) :=
  let details := responseDetails resp
  if resp.status = 401 then
    [("error", Val.bool true), ("error_type", Val.str "AuthenticationError"),
     ("message", Val.str "Authentication failed"), ("details", details),
     ("action", Val.str ("Check your GITLAB_TOKEN. Generate a new token at " ++
       "https://gitlab.com/-/profile/personal_access_tokens"))]
  else if resp.status = 403 then
    [("error", Val.bool true), ("error_type", Val.str "AuthorizationError"),
     ("message", Val.str "Access forbidden"), ("details", details),
     ("action", Val.str ("Your token does not have permission for this operation. " ++
       "Check token scopes."))]
  else if resp.status = 404 then
    [("error", Val.bool true), ("error_type", Val.str "NotFoundError"),
     ("message", Val.str "Resource not found"), ("details", details),
     ("action", Val.str "Verify the resource ID or path is correct.")]
  else if resp.status = 422 then
    [("error", Val.bool true), ("error_type", Val.str "ValidationError"),
     ("message", Val.str "Invalid request parameters"), ("details", details),
     ("action", Val.str "Check the request parameters and try again.")]
  else if resp.status = 429 then
    [("error", Val.bool true), ("error_type", Val.str "RateLimitError"),
     ("message", Val.str "Rate limit exceeded"), ("details", details),
     ("action", Val.str "Wait before making more requests. Check rate limit headers.")]
  else if 500 ≤ resp.status ∧ resp.status < 600 then
    [("error", Val.bool true), ("error_type", Val.str "ServerError"),
     ("message", Val.str ("GitLab server error (" ++ toString resp.status ++ ")")),
     ("details", details),
     ("action", Val.str ("The GitLab server encountered an error. Try again later or " ++
       "contact your GitLab administrator."))]
  else
    [("error", Val.bool true), ("error_type", Val.str "HTTPError"),
     ("message", Val.str ("HTTP error " ++ toString resp.status)), ("details", details),
     ("action", Val.str "Check the GitLab API documentation for this endpoint.")]

/-- `format_connection_error` from `errors.py`. -/
def format_connection_error (msg : String) : List (String × Val) :=
  [("error", Val.bool true), ("error_type", Val.str "ConnectionError"),
   ("message", Val.str "Failed to connect to GitLab"), ("details", Val.str msg),
   ("action", Val.str ("Check your network connection and GITLAB_URL setting. " ++
     "Verify the GitLab instance is accessible."))]

/-- `format_timeout_error` from `errors.py`. -/
def format_timeout_error (msg : String) : List (String × Val) :=
  [("error", Val.bool true), ("error_type", Val.str "TimeoutError"),
   ("message", Val.str "Request timeout"), ("details", Val.str msg),
   ("action", Val.str ("The GitLab instance is slow or unreachable. " ++
     "Try again later or increase the timeout."))]

/-- `format_validation_error` from `errors.py`. -/
def format_validation_error (msg : String) : List (String × Val) :=
  [("error", Val.bool true), ("error_type", Val.str "ValidationError"),
   ("message", Val.str "Invalid input"), ("details", Val.str msg),
   ("action", Val.str "Check the input parameters and try again.")]

/-- The `except` branches of the `handle_gitlab_errors` decorator: the
record a wrapped tool returns when its body raises the fault. -/
def handle_fault : Fault → List (String × Val)
  | Fault.httpStatus resp => format_http_error resp
  | Fault.connect m => format_connection_error m
  | Fault.timeout m => format_timeout_error m
  | Fault.valueError m => format_validation_error m
  | Fault.other m =>
    [("error", Val.bool true), ("error_type", Val.str "UnexpectedError"),
     ("message", Val.str "An unexpected error occurred"), ("details", Val.str m),
     ("action", Val.str "Please report this error with the details above.")]

/-- Modelled from the spec: the `error_type` column of the fault
classification table (spec section 4.3), keyed by fault kind and HTTP
status — the refinement reference the code is compared against. -/
def spec_error_type : Fault → String
  | Fault.httpStatus resp =>
    if resp.status = 401 then "AuthenticationError"
    else if resp.status = 403 then "AuthorizationError"
    else if resp.status = 404 then "NotFoundError"
    else if resp.status = 422 then "ValidationError"
    else if resp.status = 429 then "RateLimitError"
    else if 500 ≤ resp.status ∧ resp.status < 600 then "ServerError"
    else "HTTPError"
  | Fault.connect _ => "ConnectionError"
  | Fault.timeout _ => "TimeoutError"
  | Fault.valueError _ => "ValidationError"
  | Fault.other _ => "UnexpectedError"

/-- The ten legal `error_type` values of an Error Record. -/
def errorTypeSet : List String :=
  ["AuthenticationError", "AuthorizationError", "NotFoundError", "ValidationError",
   "RateLimitError", "ServerError", "HTTPError", "ConnectionError", "TimeoutError",
   "UnexpectedError"]

/-! ## `server.py`: configuration -/

/-- The three environment variables `get_gitlab_config` reads
(`GITLAB_TOKEN`, `GITLAB_URL`, `GITLAB_VERIFY_SSL`); `Option.none` means
the variable is unset. -/
structure ConfigEnv where
  gitlab_token : Option String
  gitlab_url : Option String
  gitlab_verify_ssl : Option String

/-- The configuration record `get_gitlab_config` returns. -/
structure GitLabConfig where
  base_url : String
  token : String
  verify_ssl : Bool

/-- Python `s.rstrip("/")`: remove every trailing slash character. -/
def rstripSlashes (s : String) : String :=
  String.mk ((s.toList.reverse.dropWhile (fun c => c == '/')).reverse)

/-- The message of the `ValueError` raised when `GITLAB_TOKEN` is unset or
empty (Python string falsiness: `if not token`). -/
def tokenRequiredMsg : String :=
  "GITLAB_TOKEN environment variable is required. " ++
  "Generate a token at https://gitlab.com/-/profile/personal_access_tokens"

/-- `get_gitlab_config` from `server.py`.  `Except.error` carries the
message of the raised `ValueError`. -/
def get_gitlab_config (env : ConfigEnv) : Except String GitLabConfig :=
  match env.gitlab_token with
  | Option.none => Except.error tokenRequiredMsg
  | Option.some token =>
    if token = "" then Except.error tokenRequiredMsg
    else
      let base_url := env.gitlab_url.getD "https://gitlab.com"
      if pyStartsWith base_url "http://" || pyStartsWith base_url "https://" then
        let verify_ssl_str := pyLower (env.gitlab_verify_ssl.getD "true")
        Except.ok
          { base_url := rstripSlashes base_url,
            token := token,
            verify_ssl := ["true", "1", "yes"].contains verify_ssl_str }
      else
        Except.error ("GITLAB_URL must start with http:// or https://, got: " ++ base_url)

/-! ## `server.py`: request executor -/

/-- One outbound HTTP request as `make_request` assembles it. -/
structure Request where
  method : String
  url : String
  params : List (String × Val)

/-- `make_request` from `server.py`: resolve configuration (a
configuration `ValueError` propagates as a validation fault and issues no
request), build the URL as `base_url ++ "/api/v4/" ++ endpoint`, and issue
exactly one request.  The network is an oracle from requests to a decoded
JSON body or a fault (`raise_for_status`, connection, timeout); the second
component lists the requests issued. -/
def make_request (env : ConfigEnv) (oracle : Request → Except Fault Val)
    (method endpoint : String) (params : List (String × Val)) :
    Except Fault Val × List Request :=
  match get_gitlab_config env with
  | Except.error m => (Except.error (Fault.valueError m), [])
  | Except.ok config =>
    let req : Request :=
      { method := method, url := config.base_url ++ "/api/v4/" ++ endpoint,
        params := params }
    (oracle req, [req])

/-! ## `server.py`: result shaping -/

/-- The `DEFAULT_FIELDS` table from `server.py`. -/
def DEFAULT_FIELDS : List (String × List String) :=
  [("project", ["id", "name", "path", "description", "web_url", "visibility"]),
   ("issue", ["id", "iid", "title", "state", "author", "created_at", "web_url"]),
   ("merge_request",
    ["id", "iid", "title", "state", "source_branch", "target_branch", "author", "web_url"]),
   ("commit", ["id", "short_id", "title", "author_name", "created_at", "web_url"]),
   ("branch", ["name", "commit", "protected", "web_url"]),
   ("pipeline", ["id", "status", "ref", "created_at", "web_url"]),
   ("job", ["id", "name", "status", "stage", "created_at", "web_url"]),
   ("user", ["id", "username", "name", "avatar_url"]),
   ("group", ["id", "name", "path", "description", "web_url"]),
   ("label", ["id", "name", "color", "description"]),
   ("milestone", ["id", "iid", "title", "state", "due_date", "web_url"])]

/-- The `include_fields` argument of `filter_fields`:
`str | list[str] | None`. -/
inductive IncludeSpec where
  | str (s : String)
  | list (fields : List String)
  | none
  deriving DecidableEq

/-- The inner `filter_object` helper of `filter_fields`: keep only the
top-level keys in the field set; non-dict objects pass through. -/
def filter_object (field_set : List String) : Val → Val
  | Val.dict entries => Val.dict (entries.filter (fun kv => field_set.contains kv.1))
  | v => v

/-- The final dispatch of `filter_fields`: lists are filtered item-wise,
a single object directly. -/
def applyFieldFilter (fields : List String) : Val → Val
  | Val.list items => Val.list (items.map (filter_object fields))
  | v => filter_object fields v

/-- The field-list resolution of `filter_fields`: an explicit string is
split on commas and each part stripped; an explicit list is used as-is;
otherwise the default set for `resource_type` applies when
`resource_type` is truthy (non-empty) and known, and `Option.none` means
"no filtering". -/
def effectiveFields (include_fields : IncludeSpec) (resource_type : Option String) :
    Option (List String) :=
  match include_fields with
  | IncludeSpec.str s => Option.some ((pySplitComma s).map pyStrip)
  | IncludeSpec.list l => Option.some l
  | IncludeSpec.none =>
    match resource_type with
    | Option.some rt =>
      if rt = "" then Option.none else alistGet rt DEFAULT_FIELDS
    | Option.none => Option.none

/-- `filter_fields` from `server.py`. -/
def filter_fields (data : Val) (include_fields : IncludeSpec)
    (resource_type : Option String) : Val :=
  if include_fields = IncludeSpec.str "all" then data
  else
    match effectiveFields include_fields resource_type with
    | Option.some fields => applyFieldFilter fields data
    | Option.none => data

/-- `paginate_response` from `server.py`.  The `total` key is appended
after the five base entries exactly when `total` is supplied. -/
def paginate_response (items : List Val) (page per_page : Int)
    (total : Option Int) : List (String × Val) :=
  let has_next : Bool := (items.length : Int) == per_page
  let response : List (String × Val) :=
    [("items", Val.list items), ("page", Val.int page), ("per_page", Val.int per_page),
     ("has_next", Val.bool has_next),
     ("next_page", if has_next then Val.int (page + 1) else Val.none)]
  match total with
  | Option.some t => response ++ [("total", Val.int t)]
  | Option.none => response

/-! ## `server.py`: parameter validators -/

/-- Matcher for the part of a Python integer literal body after its first
digit: `(digit | _ digit)*` (an underscore must be followed by a digit). -/
def digitsRest : List Char → Bool
  | [] => true
  | '_' :: c :: rest => c.isDigit && digitsRest rest
  | c :: rest => c.isDigit && digitsRest rest

/-- Matcher for a Python integer literal body: a digit followed by
`digitsRest` (underscores only between digits). -/
def digitsStart : List Char → Bool
  | [] => false
  | c :: rest => c.isDigit && digitsRest rest

/-- Numeric value of a digit-and-underscore run. -/
def digitsToNatAux : Nat → List Char → Nat
  | acc, [] => acc
  | acc, c :: rest =>
    if c == '_' then digitsToNatAux acc rest
    else digitsToNatAux (acc * 10 + (c.toNat - 48)) rest

/-- Python `int(s)` on a string (ASCII fragment): strip surrounding
whitespace, allow one optional sign, then a digit run with underscores
only between digits; `Option.none` when `int` would raise `ValueError`. -/
def pyIntOfString (s : String) : Option Int :=
  let cs := (pyStrip s).toList
  match cs with
  | '+' :: rest =>
    if digitsStart rest then Option.some (Int.ofNat (digitsToNatAux 0 rest)) else Option.none
  | '-' :: rest =>
    if digitsStart rest then Option.some (-(Int.ofNat (digitsToNatAux 0 rest))) else Option.none
  | _ =>
    if digitsStart cs then Option.some (Int.ofNat (digitsToNatAux 0 cs)) else Option.none

/-- `validate_project_id` from `server.py`: reject floats first, coerce
strings via `int(...)`, then range-check; `Except.error` carries the
raised `ValueError` message. -/
def validate_project_id (project_id : PyVal) : Except String Int :=
  match project_id with
  | PyVal.float r =>
    Except.error ("project_id must be an integer, got " ++
      pyTypeName (PyVal.float r) ++ ": " ++ pyStr (PyVal.float r))
  | PyVal.int n =>
    if n ≤ 0 then
      Except.error ("project_id must be a positive integer, got: " ++ toString n)
    else Except.ok n
  | PyVal.str s =>
    match pyIntOfString s with
    | Option.none =>
      Except.error ("project_id must be an integer, got " ++
        pyTypeName (PyVal.str s) ++ ": " ++ pyStr (PyVal.str s))
    | Option.some n =>
      if n ≤ 0 then
        Except.error ("project_id must be a positive integer, got: " ++ toString n)
      else Except.ok n
  | PyVal.none =>
    Except.error ("project_id must be an integer, got " ++
      pyTypeName PyVal.none ++ ": " ++ pyStr PyVal.none)

/-- `validate_iid` from `server.py`: the same validator parameterised by
the reported parameter name (Python default `"iid"`). -/
def validate_iid (iid : PyVal) (param_name : String) : Except String Int :=
  match iid with
  | PyVal.float r =>
    Except.error (param_name ++ " must be an integer, got " ++
      pyTypeName (PyVal.float r) ++ ": " ++ pyStr (PyVal.float r))
  | PyVal.int n =>
    if n ≤ 0 then
      Except.error (param_name ++ " must be a positive integer, got: " ++ toString n)
    else Except.ok n
  | PyVal.str s =>
    match pyIntOfString s with
    | Option.none =>
      Except.error (param_name ++ " must be an integer, got " ++
        pyTypeName (PyVal.str s) ++ ": " ++ pyStr (PyVal.str s))
    | Option.some n =>
      if n ≤ 0 then
        Except.error (param_name ++ " must be a positive integer, got: " ++ toString n)
      else Except.ok n
  | PyVal.none =>
    Except.error (param_name ++ " must be an integer, got " ++
      pyTypeName PyVal.none ++ ": " ++ pyStr PyVal.none)

/-- `validate_branch_name` from `server.py`: must be a string and
non-empty after stripping; returns the stripped name. -/
def validate_branch_name (branch_name : PyVal) : Except String String :=
  match branch_name with
  | PyVal.str s =>
    if pyStrip s = "" then Except.error "branch_name cannot be empty or whitespace only"
    else Except.ok (pyStrip s)
  | v =>
    Except.error ("branch_name must be a string, got " ++ pyTypeName v ++ ": " ++ pyStr v)

/-! ## `server.py`: branch-name encoding and tools -/

/-- UTF-8 encoding of one character, as the byte values `quote` works on. -/
def utf8Bytes (c : Char) : List Nat :=
  let n := c.toNat
  if n < 128 then [n]
  else if n < 2048 then [192 + n / 64, 128 + n % 64]
  else if n < 65536 then [224 + n / 4096, 128 + (n / 64) % 64, 128 + n % 64]
  else [240 + n / 262144, 128 + (n / 4096) % 64, 128 + (n / 64) % 64, 128 + n % 64]

/-- The bytes `urllib.parse.quote` never encodes (its `ALWAYS_SAFE` set:
ASCII letters, digits, `_.-~`); the call in `encode_branch_name` passes
`safe=''`, so nothing else is kept literal. -/
def isSafeByte (b : Nat) : Bool :=
  (decide (65 ≤ b) && decide (b ≤ 90)) || (decide (97 ≤ b) && decide (b ≤ 122)) ||
  (decide (48 ≤ b) && decide (b ≤ 57)) || b == 95 || b == 46 || b == 45 || b == 126

/-- Uppercase hexadecimal digits, as `quote` emits them. -/
def hexDigits : List Char :=
  ['0', '1', '2', '3', '4', '5', '6', '7', '8', '9', 'A', 'B', 'C', 'D', 'E', 'F']

/-- The hexadecimal digit for a value below 16. -/
def hexDigit (n : Nat) : Char := hexDigits.getD n '0'

/-- `quote`'s treatment of one byte: kept literal when always-safe, else
percent-escaped with two uppercase hex digits. -/
def quoteByteChars (b : Nat) : List Char :=
  if isSafeByte b then [Char.ofNat b] else ['%', hexDigit (b / 16), hexDigit (b % 16)]

/-- `urllib.parse.quote(s, safe='')` over the UTF-8 bytes of `s`. -/
def pyQuote (s : String) : String :=
  String.mk (((s.toList.map utf8Bytes).flatten.map quoteByteChars).flatten)

/-- `encode_branch_name` from `server.py`. -/
def encode_branch_name (branch : String) : String := pyQuote branch

/-- The `get_project` tool as wrapped by `handle_gitlab_errors`:
validate, issue one GET request, filter fields; any fault becomes an
error-record dict.  Returns the tool's value with the requests issued. -/
def get_project (env : ConfigEnv) (oracle : Request → Except Fault Val)
    (project_id : PyVal) (include_fields : IncludeSpec) : Val × List Request :=
  match validate_project_id project_id with
  | Except.error m => (Val.dict (handle_fault (Fault.valueError m)), [])
  | Except.ok pid =>
    let r := make_request env oracle "GET" ("projects/" ++ toString pid) []
    (match r.1 with
     | Except.ok v => filter_fields v include_fields (Option.some "project")
     | Except.error f => Val.dict (handle_fault f),
     r.2)

/-- The `get_branch` tool as wrapped by `handle_gitlab_errors`:
validate both parameters, URL-encode the branch name, issue one GET
request, filter fields. -/
def get_branch (env : ConfigEnv) (oracle : Request → Except Fault Val)
    (project_id : PyVal) (branch : PyVal) (include_fields : IncludeSpec) :
    Val × List Request :=
  match validate_project_id project_id with
  | Except.error m => (Val.dict (handle_fault (Fault.valueError m)), [])
  | Except.ok pid =>
    match validate_branch_name branch with
    | Except.error m => (Val.dict (handle_fault (Fault.valueError m)), [])
    | Except.ok br =>
      let encoded := encode_branch_name br
      let r := make_request env oracle "GET"
        ("projects/" ++ toString pid ++ "/repository/branches/" ++ encoded) []
      (match r.1 with
       | Except.ok v => filter_fields v include_fields (Option.some "branch")
       | Except.error f => Val.dict (handle_fault f),
       r.2)

/-! ## Helper lemmas -/

theorem listStartsWith_append (n rest : List Char) :
    listStartsWith (n ++ rest) n = true := by
  induction n with
  | nil => cases rest <;> rfl
  | cons a t ih => simp [listStartsWith, ih]

theorem listStartsWith_self (n : List Char) : listStartsWith n n = true := by
  simpa using listStartsWith_append n []

theorem listStartsWith_extend {l n : List Char} (post : List Char)
    (h : listStartsWith l n = true) : listStartsWith (l ++ post) n = true := by
  induction n generalizing l with
  | nil => cases l ++ post <;> rfl
  | cons b bs ih =>
    cases l with
    | nil => simp [listStartsWith] at h
    | cons a t =>
      simp only [listStartsWith, Bool.and_eq_true] at h
      simp [listStartsWith, h.1, ih h.2]

theorem listContains_of_startsWith {l n : List Char}
    (h : listStartsWith l n = true) : listContains l n = true := by
  cases l with
  | nil =>
    cases n with
    | nil => rfl
    | cons b bs => simp [listStartsWith] at h
  | cons a t => simp [listContains, h]

theorem listContains_append_left {l n : List Char} (pre : List Char)
    (h : listContains l n = true) : listContains (pre ++ l) n = true := by
  induction pre with
  | nil => exact h
  | cons a t ih =>
    simp only [List.cons_append, listContains, Bool.or_eq_true]
    exact Or.inr ih

theorem listContains_append_right {l n : List Char} (post : List Char)
    (h : listContains l n = true) : listContains (l ++ post) n = true := by
  induction l with
  | nil =>
    cases n with
    | nil =>
      cases post with
      | nil => rfl
      | cons b bs => simp [listContains, listStartsWith]
    | cons b bs => simp [listContains, List.isEmpty] at h
  | cons a t ih =>
    simp only [listContains, Bool.or_eq_true] at h
    rcases h with h | h
    · simp only [List.cons_append, listContains, Bool.or_eq_true]
      exact Or.inl (listStartsWith_extend post h)
    · simp only [List.cons_append, listContains, Bool.or_eq_true]
      exact Or.inr (ih h)

theorem strContains_append_right (a b : String) : strContains (a ++ b) b = true :=
  listContains_append_left a.toList
    (listContains_of_startsWith (listStartsWith_self b.toList))

theorem strContains_extend_left {a n : String} (b : String)
    (h : strContains a n = true) : strContains (b ++ a) n = true :=
  listContains_append_left b.toList h

theorem strContains_extend_right {a n : String} (b : String)
    (h : strContains a n = true) : strContains (a ++ b) n = true :=
  listContains_append_right b.toList h

theorem filter_self_idem {α : Type} (p : α → Bool) (l : List α) :
    (l.filter p).filter p = l.filter p := by
  induction l with
  | nil => rfl
  | cons a t ih =>
    by_cases h : p a = true
    · simp [List.filter_cons, h, ih]
    · simp [List.filter_cons, h, ih]

theorem filter_object_idem (fields : List String) (v : Val) :
    filter_object fields (filter_object fields v) = filter_object fields v := by
  cases v with
  | dict entries => simp [filter_object, filter_self_idem]
  | none => rfl
  | bool b => rfl
  | int n => rfl
  | str s => rfl
  | list items => rfl

theorem applyFieldFilter_idem (fields : List String) (v : Val) :
    applyFieldFilter fields (applyFieldFilter fields v) = applyFieldFilter fields v := by
  cases v with
  | list items =>
    simp only [applyFieldFilter, List.map_map]
    exact congrArg Val.list (List.map_congr_left (fun a _ => filter_object_idem fields a))
  | dict entries => simp [applyFieldFilter, filter_object, filter_self_idem]
  | none => rfl
  | bool b => rfl
  | int n => rfl
  | str s => rfl

theorem head?_dropWhile_false {α : Type} (p : α → Bool) (l : List α) :
    ∀ a, (l.dropWhile p).head? = Option.some a → p a = false := by
  induction l with
  | nil => intro a h; simp [List.dropWhile] at h
  | cons x t ih =>
    intro a h
    by_cases hx : p x = true
    · rw [List.dropWhile_cons_of_pos hx] at h
      exact ih a h
    · rw [List.dropWhile_cons_of_neg hx] at h
      simp only [List.head?_cons, Option.some.injEq] at h
      rw [← h]
      exact Bool.eq_false_iff.mpr hx

/-! ## Claim theorems -/

/-- C1.  Every fault caught at the tool boundary is formatted into a
record with exactly the five keys `error`, `error_type`, `message`,
`details`, `action`, with `error = true` and with `error_type` given by
the spec's classification table (401 ↦ AuthenticationError, 403 ↦
AuthorizationError, 404 ↦ NotFoundError, 422 ↦ ValidationError, 429 ↦
RateLimitError, 5xx ↦ ServerError, other statuses ↦ HTTPError,
connection ↦ ConnectionError, timeout ↦ TimeoutError, input validation ↦
ValidationError, anything else ↦ UnexpectedError), which always lies in
the fixed ten-member set. -/
theorem error_classifier_complete (f : Fault) :
    dictKeys (handle_fault f) = ["error", "error_type", "message", "details", "action"]
    ∧ alistGet "error" (handle_fault f) = Option.some (Val.bool true)
    ∧ alistGet "error_type" (handle_fault f) = Option.some (Val.str (spec_error_type f))
    ∧ spec_error_type f ∈ errorTypeSet := by
  cases f with
  | httpStatus resp =>
    simp only [handle_fault, format_http_error, spec_error_type]
    split_ifs <;> exact ⟨rfl, rfl, rfl, by decide⟩
  | connect m => exact ⟨rfl, rfl, rfl, by simp [spec_error_type, errorTypeSet]⟩
  | timeout m => exact ⟨rfl, rfl, rfl, by simp [spec_error_type, errorTypeSet]⟩
  | valueError m => exact ⟨rfl, rfl, rfl, by simp [spec_error_type, errorTypeSet]⟩
  | other m => exact ⟨rfl, rfl, rfl, by simp [spec_error_type, errorTypeSet]⟩

/-- C2.  `paginate_response` sets `has_next` to `len(items) == per_page`
independently of `total`, sets `next_page` to `page + 1` exactly when
`has_next` holds and to `null` otherwise, and attaches a `total` key
exactly when a total was supplied, carried through unchanged. -/
theorem paginate_response_spec (items : List Val) (page per_page : Int)
    (total : Option Int) :
    alistGet "has_next" (paginate_response items page per_page total)
      = Option.some (Val.bool ((items.length : Int) == per_page))
    ∧ alistGet "next_page" (paginate_response items page per_page total)
      = Option.some (if (items.length : Int) == per_page then Val.int (page + 1) else Val.none)
    ∧ alistGet "total" (paginate_response items page per_page total)
      = total.map Val.int := by
  cases total with
  | none => exact ⟨rfl, rfl, rfl⟩
  | some t => exact ⟨rfl, rfl, rfl⟩

/-- C3 counterexample.  The claim states that a non-positive result makes
the validator raise with a message containing the offending value *and
its type name*; for the string input `"0"` (type name `str`) the range
branch fires with a message that contains the value but not the type
name. -/
theorem positive_id_validator_counterexample :
    validate_project_id (PyVal.str "0")
      = Except.error "project_id must be a positive integer, got: 0"
    ∧ strContains "project_id must be a positive integer, got: 0"
        (pyTypeName (PyVal.str "0")) = false := by
  exact ⟨rfl, by decide⟩

/-- C3 amended.  The positive-integer ID validator rejects every float
and every non-parseable string with a message containing the offending
value and its type name; a coerced non-positive result is rejected with a
message containing the value (but not necessarily the type name);
integers ≥ 1 are returned unchanged and strings parseable as integers
≥ 1 are returned as the parsed integer.  `validate_iid` behaves the same
with its reported parameter name. -/
theorem positive_id_validator_amended :
    (∀ r, validate_project_id (PyVal.float r)
        = Except.error ("project_id must be an integer, got float: " ++ r)
      ∧ strContains ("project_id must be an integer, got float: " ++ r) r = true
      ∧ strContains ("project_id must be an integer, got float: " ++ r) "float" = true)
    ∧ (∀ s, pyIntOfString s = Option.none →
        validate_project_id (PyVal.str s)
          = Except.error ("project_id must be an integer, got str: " ++ s)
        ∧ strContains ("project_id must be an integer, got str: " ++ s) s = true
        ∧ strContains ("project_id must be an integer, got str: " ++ s) "str" = true)
    ∧ (∀ n : Int, n ≤ 0 →
        validate_project_id (PyVal.int n)
          = Except.error ("project_id must be a positive integer, got: " ++ toString n)
        ∧ strContains ("project_id must be a positive integer, got: " ++ toString n)
            (toString n) = true)
    ∧ (∀ s n, pyIntOfString s = Option.some n → n ≤ 0 →
        validate_project_id (PyVal.str s)
          = Except.error ("project_id must be a positive integer, got: " ++ toString n))
    ∧ (∀ n : Int, 1 ≤ n → validate_project_id (PyVal.int n) = Except.ok n)
    ∧ (∀ s n, pyIntOfString s = Option.some n → 1 ≤ n →
        validate_project_id (PyVal.str s) = Except.ok n)
    ∧ (∀ p r, ∃ m, validate_iid (PyVal.float r) p = Except.error m
        ∧ strContains m r = true ∧ strContains m "float" = true)
    ∧ (∀ p n, 1 ≤ (n : Int) → validate_iid (PyVal.int n) p = Except.ok n) := by
  refine ⟨?_, ?_, ?_, ?_, ?_, ?_, ?_, ?_⟩
  · intro r
    exact ⟨rfl, strContains_append_right _ r,
      strContains_extend_right r (by decide)⟩
  · intro s h
    refine ⟨?_, strContains_append_right _ s,
      strContains_extend_right s (by decide)⟩
    simp only [validate_project_id, h]
    rfl
  · intro n h
    constructor
    · simp only [validate_project_id]
      rw [if_pos h]
    · exact strContains_append_right _ (toString n)
  · intro s n hs hn
    simp only [validate_project_id, hs]
    rw [if_pos hn]
  · intro n h
    simp only [validate_project_id]
    rw [if_neg (by omega)]
  · intro s n hs hn
    simp only [validate_project_id, hs]
    rw [if_neg (by omega)]
  · intro p r
    refine ⟨p ++ " must be an integer, got " ++ pyTypeName (PyVal.float r) ++ ": " ++
      pyStr (PyVal.float r), rfl, strContains_append_right _ _, ?_⟩
    exact strContains_extend_right _ (strContains_extend_right _
      (strContains_append_right _ _))
  · intro p n h
    simp only [validate_iid]
    rw [if_neg (by omega)]

/-- C3 witness: the amended validator theorem at concrete inputs. -/
theorem positive_id_validator_witness :
    validate_project_id (PyVal.int 7) = Except.ok 7
    ∧ validate_project_id (PyVal.str "42") = Except.ok 42
    ∧ validate_project_id (PyVal.float "12.0")
        = Except.error "project_id must be an integer, got float: 12.0"
    ∧ validate_project_id (PyVal.str "abc")
        = Except.error "project_id must be an integer, got str: abc"
    ∧ validate_iid (PyVal.int 9) "issue_iid" = Except.ok 9 := by
  refine ⟨?_, ?_, ?_, ?_, ?_⟩
  · exact positive_id_validator_amended.2.2.2.2.1 7 (by norm_num)
  · exact positive_id_validator_amended.2.2.2.2.2.1 "42" 42 (by decide) (by norm_num)
  · exact (positive_id_validator_amended.1 "12.0").1
  · exact (positive_id_validator_amended.2.1 "abc" (by decide)).1
  · exact positive_id_validator_amended.2.2.2.2.2.2.2 "issue_iid" 9 (by norm_num)

/-- C4.  Parameter validation runs before the network call: whenever the
project-id validator rejects, `get_project` issues no HTTP request (the
request trace is empty) and returns the validation error record, which
has `error = true` and `error_type = "ValidationError"`. -/
theorem get_project_validation_short_circuit (env : ConfigEnv)
    (oracle : Request → Except Fault Val) (pid : PyVal) (inc : IncludeSpec)
    (m : String) (h : validate_project_id pid = Except.error m) :
    get_project env oracle pid inc = (Val.dict (format_validation_error m), [])
    ∧ alistGet "error" (format_validation_error m) = Option.some (Val.bool true)
    ∧ alistGet "error_type" (format_validation_error m)
      = Option.some (Val.str "ValidationError") := by
  refine ⟨?_, rfl, rfl⟩
  simp [get_project, h, handle_fault]

/-- C4 witness: `get_project` at `project_id = -1` with a live oracle
still issues no request and yields the ValidationError record. -/
theorem get_project_validation_short_circuit_witness :
    validate_project_id (PyVal.int (-1))
      = Except.error "project_id must be a positive integer, got: -1"
    ∧ get_project ⟨Option.some "token", Option.none, Option.none⟩
        (fun _ => Except.ok Val.none) (PyVal.int (-1)) IncludeSpec.none
      = (Val.dict
          (format_validation_error "project_id must be a positive integer, got: -1"),
         []) := by
  constructor
  · rfl
  · exact (get_project_validation_short_circuit _ _ _ _ _ (by rfl)).1

/-- C5.  With no explicit include list and resource type `project`,
`filter_fields` keeps exactly the top-level keys of the project default
field set (for a single record and for a list of records), and an
unknown resource type means no filtering at all. -/
theorem filter_default_fallback :
    (∀ entries : List (String × Val),
      filter_fields (Val.dict entries) IncludeSpec.none (Option.some "project")
        = Val.dict (entries.filter (fun kv =>
            (["id", "name", "path", "description", "web_url", "visibility"] :
              List String).contains kv.1)))
    ∧ (∀ (entries : List (String × Val)) (kv : String × Val),
        kv ∈ entries.filter (fun kv =>
          (["id", "name", "path", "description", "web_url", "visibility"] :
            List String).contains kv.1) →
        kv.1 ∈ (["id", "name", "path", "description", "web_url", "visibility"] :
          List String))
    ∧ (∀ items : List Val,
        filter_fields (Val.list items) IncludeSpec.none (Option.some "project")
          = Val.list (items.map
              (filter_object ["id", "name", "path", "description", "web_url", "visibility"])))
    ∧ (∀ (data : Val) (rt : String), alistGet rt DEFAULT_FIELDS = Option.none →
        filter_fields data IncludeSpec.none (Option.some rt) = data) := by
  refine ⟨?_, ?_, ?_, ?_⟩
  · intro entries; rfl
  · intro entries kv h
    simpa using (List.mem_filter.mp h).2
  · intro items; rfl
  · intro data rt h
    by_cases hrt : rt = ""
    · simp [filter_fields, effectiveFields, hrt]
    · simp [filter_fields, effectiveFields, hrt, h]

/-- C5 witness: an unknown resource type leaves the data unchanged. -/
theorem filter_default_fallback_witness :
    alistGet "snippet" DEFAULT_FIELDS = Option.none
    ∧ filter_fields (Val.dict [("id", Val.int 1)]) IncludeSpec.none
        (Option.some "snippet") = Val.dict [("id", Val.int 1)] :=
  ⟨rfl, filter_default_fallback.2.2.2 _ _ rfl⟩

/-- C6.  Field filtering is idempotent: filtering twice with the same
include specification and resource type is the same as filtering once,
for every data value. -/
theorem filter_fields_idempotent (data : Val) (inc : IncludeSpec)
    (rt : Option String) :
    filter_fields (filter_fields data inc rt) inc rt
      = filter_fields data inc rt := by
  by_cases h : inc = IncludeSpec.str "all"
  · have hid : ∀ d : Val, filter_fields d inc rt = d := by
      intro d; unfold filter_fields; rw [if_pos h]
    rw [hid, hid]
  · have hF : ∀ d : Val, filter_fields d inc rt
        = match effectiveFields inc rt with
          | Option.some fields => applyFieldFilter fields d
          | Option.none => d := by
      intro d; unfold filter_fields; rw [if_neg h]
    rw [hF, hF]
    cases heff : effectiveFields inc rt with
    | none => rfl
    | some fields => exact applyFieldFilter_idem fields data

/-- C7.  Configuration resolution fails (with the "token is required"
message) when the token variable is absent or empty, fails when the base
URL has neither an `http://` nor an `https://` prefix, otherwise succeeds
with all trailing slashes stripped from the base URL (the resulting URL
never ends in a slash) and with the TLS flag true exactly when the
lowercased setting is one of `true`, `1`, `yes`, defaulting to true when
absent. -/
theorem config_resolution_spec :
    (∀ url verify, get_gitlab_config ⟨Option.none, url, verify⟩
        = Except.error tokenRequiredMsg)
    ∧ (∀ url verify, get_gitlab_config ⟨Option.some "", url, verify⟩
        = Except.error tokenRequiredMsg)
    ∧ strContains tokenRequiredMsg "required" = true
    ∧ (∀ tok url verify, ¬ tok = "" →
        pyStartsWith url "http://" = false → pyStartsWith url "https://" = false →
        get_gitlab_config ⟨Option.some tok, Option.some url, verify⟩
          = Except.error ("GITLAB_URL must start with http:// or https://, got: " ++ url))
    ∧ (∀ tok url verify, ¬ tok = "" →
        (pyStartsWith url "http://" || pyStartsWith url "https://") = true →
        get_gitlab_config ⟨Option.some tok, Option.some url, verify⟩
          = Except.ok ⟨rstripSlashes url, tok,
              (["true", "1", "yes"] : List String).contains (pyLower (verify.getD "true"))⟩)
    ∧ (∀ url c, (rstripSlashes url).toList.getLast? = Option.some c → ¬ c = '/')
    ∧ (["true", "1", "yes"] : List String).contains
        (pyLower ((Option.none : Option String).getD "true")) = true := by
  refine ⟨?_, ?_, by decide, ?_, ?_, ?_, by decide⟩
  · intro url verify; rfl
  · intro url verify; rfl
  · intro tok url verify ht h1 h2
    simp [get_gitlab_config, ht, h1, h2]
  · intro tok url verify ht h
    simp [get_gitlab_config, ht, h]
  · intro url c h
    have h2 : (url.toList.reverse.dropWhile (fun ch => ch == '/')).head?
        = Option.some c := by
      simpa [rstripSlashes, List.getLast?_reverse] using h
    have h3 := head?_dropWhile_false _ _ c h2
    intro hc
    rw [hc] at h3
    simp at h3

/-- C7 witness: concrete resolutions exercising slash stripping,
case-insensitive TLS parsing, and the scheme check. -/
theorem config_resolution_witness :
    get_gitlab_config
        ⟨Option.some "tok", Option.some "https://gitlab.example.com///", Option.some "YES"⟩
      = Except.ok ⟨"https://gitlab.example.com", "tok", true⟩
    ∧ get_gitlab_config ⟨Option.some "tok", Option.some "gitlab.example.com", Option.none⟩
      = Except.error
          "GITLAB_URL must start with http:// or https://, got: gitlab.example.com" := by
  constructor
  · exact config_resolution_spec.2.2.2.2.1 "tok" "https://gitlab.example.com///"
      (Option.some "YES") (by decide) (by decide)
  · exact config_resolution_spec.2.2.2.1 "tok" "gitlab.example.com" Option.none
      (by decide) (by decide) (by decide)

/-- C8.  The `details` field of an HTTP-status error record is the decoded
body's `message` field when the body decodes to a dict containing one,
and otherwise the raw response text (both when the body does not decode,
and when it decodes to a dict without `message` or to a non-dict value). -/
theorem http_error_details_extraction :
    (∀ resp : HttpResponse,
      alistGet "details" (format_http_error resp) = Option.some (responseDetails resp))
    ∧ (∀ (resp : HttpResponse) (fields : List (String × Val)) (v : Val),
        resp.json = Option.some (Val.dict fields) →
        alistGet "message" fields = Option.some v →
        alistGet "details" (format_http_error resp) = Option.some v)
    ∧ (∀ (resp : HttpResponse) (fields : List (String × Val)),
        resp.json = Option.some (Val.dict fields) →
        alistGet "message" fields = Option.none →
        alistGet "details" (format_http_error resp) = Option.some (Val.str resp.text))
    ∧ (∀ resp : HttpResponse, resp.json = Option.none →
        alistGet "details" (format_http_error resp) = Option.some (Val.str resp.text))
    ∧ (∀ (resp : HttpResponse) (j : Val), resp.json = Option.some j →
        (∀ fields, ¬ j = Val.dict fields) →
        alistGet "details" (format_http_error resp) = Option.some (Val.str resp.text)) := by
  have hdet : ∀ resp : HttpResponse,
      alistGet "details" (format_http_error resp) = Option.some (responseDetails resp) := by
    intro resp
    simp only [format_http_error]
    split_ifs <;> rfl
  refine ⟨hdet, ?_, ?_, ?_, ?_⟩
  · intro resp fields v hj hm
    rw [hdet resp]
    simp [responseDetails, hj, hm]
  · intro resp fields hj hm
    rw [hdet resp]
    simp [responseDetails, hj, hm]
  · intro resp hj
    rw [hdet resp]
    simp [responseDetails, hj]
  · intro resp j hj hnd
    rw [hdet resp]
    cases j with
    | dict fields => exact absurd rfl (hnd fields)
    | none => simp [responseDetails, hj]
    | bool b => simp [responseDetails, hj]
    | int n => simp [responseDetails, hj]
    | str s => simp [responseDetails, hj]
    | list items => simp [responseDetails, hj]

/-- C8 witness: a 404 with JSON body `{"message": "404 Not Found"}`
yields that message as details; an undecodable 500 body yields the raw
text. -/
theorem http_error_details_witness :
    alistGet "details" (format_http_error
        ⟨404, "raw body", Option.some (Val.dict [("message", Val.str "404 Not Found")])⟩)
      = Option.some (Val.str "404 Not Found")
    ∧ alistGet "details" (format_http_error ⟨500, "oops", Option.none⟩)
      = Option.some (Val.str "oops") :=
  ⟨http_error_details_extraction.2.1 _ _ _ rfl rfl,
   http_error_details_extraction.2.2.2.1 _ rfl⟩

/-- C9.  `get_branch(project_id=123, branch="feature/test-branch")`
issues its single request against the path segment
`feature%2Ftest-branch`: the branch name is percent-encoded (uppercase
hex, no extra safe characters) before insertion into the endpoint
suffix, whatever the oracle answers and whatever field filter is
requested. -/
theorem get_branch_percent_encoding :
    encode_branch_name "feature/test-branch" = "feature%2Ftest-branch"
    ∧ (∀ (oracle : Request → Except Fault Val) (inc : IncludeSpec),
        (get_branch ⟨Option.some "token", Option.none, Option.none⟩ oracle
            (PyVal.int 123) (PyVal.str "feature/test-branch") inc).2
          = [⟨"GET",
              "https://gitlab.com/api/v4/projects/123/repository/branches/feature%2Ftest-branch",
              []⟩]) :=
  ⟨rfl, fun _ _ => rfl⟩

/-- C10 counterexample.  The claim states that, with the empty string as
include specification, *every* top-level key is dropped and the result is
always an empty record; a record whose key is itself the empty string is
kept, so the result is the unfiltered record, not the empty one. -/
theorem filter_empty_include_counterexample :
    filter_fields (Val.dict [("", Val.int 1)]) (IncludeSpec.str "") (Option.some "project")
      = Val.dict [("", Val.int 1)]
    ∧ ¬ (filter_fields (Val.dict [("", Val.int 1)]) (IncludeSpec.str "")
          (Option.some "project")
        = Val.dict ([] : List (String × Val))) := by
  constructor
  · rfl
  · intro hbad
    have h2 : Val.dict [("", Val.int 1)] = Val.dict ([] : List (String × Val)) := hbad
    injection h2 with hlist
    exact List.noConfusion hlist

/-- C10 amended.  The empty-string include specification is an explicit
filter, never the no-filtering branch: it splits into the one-element
field list `[""]`, so exactly the keys equal to the empty string are
kept; every record none of whose keys is the empty string filters to the
empty record, and lists are filtered item-wise the same way. -/
theorem filter_empty_include_amended :
    (∀ (entries : List (String × Val)) (rt : Option String),
      filter_fields (Val.dict entries) (IncludeSpec.str "") rt
        = Val.dict (entries.filter (fun kv => kv.1 == "")))
    ∧ (∀ (items : List Val) (rt : Option String),
        filter_fields (Val.list items) (IncludeSpec.str "") rt
          = Val.list (items.map (filter_object [""])))
    ∧ (∀ (entries : List (String × Val)) (rt : Option String),
        (∀ kv ∈ entries, ¬ kv.1 = "") →
        filter_fields (Val.dict entries) (IncludeSpec.str "") rt
          = Val.dict ([] : List (String × Val))) := by
  have h1 : ∀ (entries : List (String × Val)) (rt : Option String),
      filter_fields (Val.dict entries) (IncludeSpec.str "") rt
        = Val.dict (entries.filter (fun kv => kv.1 == "")) := by
    intro entries rt
    have base : filter_fields (Val.dict entries) (IncludeSpec.str "") rt
        = Val.dict (entries.filter (fun kv => ([""] : List String).contains kv.1)) := rfl
    rw [base]
    congr 1
    apply List.filter_congr
    intro kv _
    cases hk : kv.1 == "" <;> simp [List.contains, List.elem, hk]
  refine ⟨h1, ?_, ?_⟩
  · intro items rt; rfl
  · intro entries rt h
    rw [h1 entries rt]
    exact congrArg Val.dict
      (List.filter_eq_nil_iff.mpr (fun kv hkv => by simpa using h kv hkv))

/-- C10 witness: a record with ordinary keys filters to the empty
record under the empty-string include specification. -/
theorem filter_empty_include_witness :
    filter_fields (Val.dict [("id", Val.int 5), ("name", Val.str "x")])
      (IncludeSpec.str "") (Option.some "project")
      = Val.dict ([] : List (String × Val)) :=
  filter_empty_include_amended.2.2 _ _ (by decide)
